import Mathlib

/-!
Verification of the css-builder repository: an embedding of its AST
(`src/ast.ts`), node constructors (`src/create.ts`), serializer
(`src/serialize.ts`) and high-level builder (`src/builder.ts`), together
with theorems settling the specified properties.
-/

set_option maxHeartbeats 1000000

/-! ## Generic AST values (`src/serialize.ts`)

`AnyAstNodeValue = AnyAstNode | null | readonly AnyAstNodeValue[]` where an
`AnyAstNode` carries a `kind` and a `value` that is either a string or an
array of `AnyAstNodeValue`. -/

inductive AstV where
  | leaf (kind : String) (value : String)
  | node (kind : String) (children : List AstV)
  | null
  | arr (items : List AstV)
deriving Repr

mutual
/-- Measure used for the iterative serializer's termination. -/
def sizeV : AstV → Nat
  | .leaf _ _ => 1
  | .null => 1
  | .node _ cs => 1 + sizeVs cs
  | .arr items => 1 + sizeVs items

def sizeVs : List AstV → Nat
  | [] => 0
  | x :: xs => sizeV x + sizeVs xs
end

theorem sizeVs_append (as bs : List AstV) :
    sizeVs (as ++ bs) = sizeVs as + sizeVs bs := by
  induction as with
  | nil => simp [sizeVs]
  | cons x xs ih => simp [sizeVs, ih]; omega

/-- The iterative, stack-based serializer loop of `serialize.ts`: the head of
the list is the top of the stack; a popped array or node pushes its members so
that the leftmost is processed next; `null` is skipped; a string-valued node
appends its token to the output. -/
def serializeLoop : List AstV → String → String
  | [], out => out
  | .null :: rest, out => serializeLoop rest out
  | .leaf _ v :: rest, out => serializeLoop rest (out ++ v)
  | .arr items :: rest, out => serializeLoop (items ++ rest) out
  | .node _ cs :: rest, out => serializeLoop (cs ++ rest) out
termination_by stack _ => sizeVs stack
decreasing_by
  all_goals simp [sizeVs, sizeV, sizeVs_append]

/-- `serialize` of `src/serialize.ts`. -/
def serialize (n : AstV) : String := serializeLoop [n] ""

mutual
/-- The naive recursive depth-first concatenation of all leaf tokens,
in left-to-right order (the serializer's contract). -/
def serializeR : AstV → String
  | .leaf _ v => v
  | .null => ""
  | .node _ cs => serializeRs cs
  | .arr items => serializeRs items

def serializeRs : List AstV → String
  | [] => ""
  | x :: xs => serializeR x ++ serializeRs xs
end

/-! ## Typed AST (`src/ast.ts`)

The TypeScript types `CalcSum`, `CalcProduct` and `CalcValue` are untagged
unions: a `CalcProduct` *is* a `CalcSum`, and a `CalcValue` *is* a
`CalcProduct`.  The Lean embedding makes the two inclusions explicit with the
injections `CalcSum.prod` and `CalcProduct.val`; the record variants
(`kind: "calc-sum"` / `kind: "calc-product"`) are the `sum` / `product`
constructors. -/

/-- The `" + "` / `" - "` operator of a calc-sum pair (stored in the record
as the token `" + "` or `" - "`). -/
inductive AddOp where
  | plus
  | minus
deriving Repr, DecidableEq

/-- The `"*"` / `"/"` operator of a calc-product pair. -/
inductive MulOp where
  | times
  | div
deriving Repr, DecidableEq

/-- `RoundStrategy` of `src/ast.ts`. -/
inductive RoundStrategy where
  | nearest
  | up
  | down
  | toZero
deriving Repr, DecidableEq

def AddOp.token : AddOp → String
  | .plus => " + "
  | .minus => " - "

def MulOp.token : MulOp → String
  | .times => "*"
  | .div => "/"

def RoundStrategy.text : RoundStrategy → String
  | .nearest => "nearest"
  | .up => "up"
  | .down => "down"
  | .toZero => "to-zero"

mutual
/-- `Ast.CalcValue`: a leaf-level operand or a nested function node. -/
inductive CalcValue where
  | number (value : String)
  | dimension (num unit : String)
  | percentage (num : String)
  | keyword (value : String)
  | raw (value : String)
  | group (sum : CalcSum)
  | minF (first : CalcSum) (rest : List CalcSum)
  | maxF (first : CalcSum) (rest : List CalcSum)
  | clampF (lo : ClampBound) (preferred : CalcSum) (hi : ClampBound)
  | calcF (sum : CalcSum)
  | expF (sum : CalcSum)
  | powF (base exponent : CalcSum)
  | roundF (strategy : Option RoundStrategy) (v : CalcSum)
      (interval : Option CalcSum)
  | varF (name : String) (fallback : Option CalcSum)

/-- `Ast.CalcProduct = CalcValue | {kind: "calc-product", ...}`. -/
inductive CalcProduct where
  | val (v : CalcValue)
  | product (first : CalcValue) (rest : List (MulOp × CalcValue))

/-- `Ast.CalcSum = CalcProduct | {kind: "calc-sum", ...}`. -/
inductive CalcSum where
  | prod (p : CalcProduct)
  | sum (first : CalcProduct) (rest : List (AddOp × CalcProduct))

/-- The first/last slot of a `clamp` node: a sum or the `none` keyword. -/
inductive ClampBound where
  | noneKw
  | bound (s : CalcSum)
end

mutual
/-- Translation of a typed `CalcValue` to the generic node shape built by the
constructors of `src/create.ts`. -/
def CalcValue.toAst : CalcValue → AstV
  | .number v => .leaf "number" v
  | .dimension n u =>
    .node "dimension" [.leaf "dimension-number" n, .leaf "dimension-unit" u]
  | .percentage n =>
    .node "percentage" [.leaf "percentage-number" n, .leaf "token" "%"]
  | .keyword v => .leaf "keyword" v
  | .raw v => .leaf "raw" v
  | .group s =>
    .node "group" [.leaf "token" "(", s.toAst, .leaf "token" ")"]
  | .minF first rest =>
    .node "min" [.leaf "function" "min", .leaf "token" "(",
      .arr (first.toAst :: commaSumsToAst rest), .leaf "token" ")"]
  | .maxF first rest =>
    .node "max" [.leaf "function" "max", .leaf "token" "(",
      .arr (first.toAst :: commaSumsToAst rest), .leaf "token" ")"]
  | .clampF lo preferred hi =>
    .node "clamp" [.leaf "function" "clamp", .leaf "token" "(",
      lo.toAst, .leaf "token" ",", preferred.toAst, .leaf "token" ",",
      hi.toAst, .leaf "token" ")"]
  | .calcF s =>
    .node "calc" [.leaf "function" "calc", .leaf "token" "(",
      s.toAst, .leaf "token" ")"]
  | .expF s =>
    .node "exp" [.leaf "function" "exp", .leaf "token" "(",
      s.toAst, .leaf "token" ")"]
  | .powF base exponent =>
    .node "pow" [.leaf "function" "pow", .leaf "token" "(",
      base.toAst, .leaf "token" ",", exponent.toAst, .leaf "token" ")"]
  | .roundF strategy v interval =>
    .node "round" [.leaf "function" "round", .leaf "token" "(",
      (match strategy with
       | Option.none => .null
       | some st =>
         .arr [.leaf "rounding-strategy" st.text, .leaf "token" ","]),
      v.toAst,
      (match interval with
       | Option.none => .null
       | some iv => .arr [.leaf "token" ",", iv.toAst]),
      .leaf "token" ")"]
  | .varF name fallback =>
    .node "var" [.leaf "function" "var", .leaf "token" "(",
      .leaf "custom-property" name,
      (match fallback with
       | Option.none => .null
       | some fb => .arr [.leaf "token" ",", fb.toAst]),
      .leaf "token" ")"]

def CalcProduct.toAst : CalcProduct → AstV
  | .val v => v.toAst
  | .product first rest =>
    .node "calc-product" [first.toAst, .arr (mulPairsToAst rest)]

def CalcSum.toAst : CalcSum → AstV
  | .prod p => p.toAst
  | .sum first rest =>
    .node "calc-sum" [first.toAst, .arr (addPairsToAst rest)]

def ClampBound.toAst : ClampBound → AstV
  | .noneKw => .leaf "keyword" "none"
  | .bound s => s.toAst

def commaSumsToAst : List CalcSum → List AstV
  | [] => []
  | s :: rest => .arr [.leaf "token" ",", s.toAst] :: commaSumsToAst rest

def mulPairsToAst : List (MulOp × CalcValue) → List AstV
  | [] => []
  | (op, v) :: rest =>
    .arr [.leaf "token" op.token, v.toAst] :: mulPairsToAst rest

def addPairsToAst : List (AddOp × CalcProduct) → List AstV
  | [] => []
  | (op, p) :: rest =>
    .arr [.leaf "token" op.token, p.toAst] :: addPairsToAst rest
end

/-- Serialization of a typed value. -/
def serializeValue (v : CalcValue) : String := serialize v.toAst

/-- Serialization of a typed product. -/
def serializeProduct (p : CalcProduct) : String := serialize p.toAst

/-- Serialization of a typed sum. -/
def serializeSum (s : CalcSum) : String := serialize s.toAst

/-! ## `create.ts` constructors -/

namespace create

/-- `create.calc` (named `calcNode` here because `calc` is a Lean keyword):
wraps a sum in a `calc(...)` node. -/
def calcNode (sum : CalcSum) : CalcValue := .calcF sum

/-- `create.clacSum` (sic): collapses to the bare first product when there are
no trailing operator pairs. -/
def clacSum (first : CalcProduct) (products : List (AddOp × CalcProduct)) :
    CalcSum :=
  if products.isEmpty then .prod first else .sum first products

/-- `create.calcProduct`: collapses to the bare first value when there are no
trailing operator pairs. -/
def calcProduct (first : CalcValue) (values : List (MulOp × CalcValue)) :
    CalcProduct :=
  if values.isEmpty then .val first else .product first values

/-- `create.min`. -/
def min (first : CalcSum) (rest : List CalcSum) : CalcValue := .minF first rest

/-- `create.max`. -/
def max (first : CalcSum) (rest : List CalcSum) : CalcValue := .maxF first rest

/-- `create.clamp`. -/
def clamp (lo : ClampBound) (preferred : CalcSum) (hi : ClampBound) :
    CalcValue :=
  .clampF lo preferred hi

/-- `create.exp`. -/
def exp (sum : CalcSum) : CalcValue := .expF sum

/-- `create.pow`. -/
def pow (base exponent : CalcSum) : CalcValue := .powF base exponent

/-- `create.round`. -/
def round (strategy : Option RoundStrategy) (v : CalcSum)
    (interval : Option CalcSum) : CalcValue :=
  .roundF strategy v interval

/-- `create.calcValue.group`. -/
def calcValueGroup (s : CalcSum) : CalcValue := .group s

/-- `create.calcValue.number` (string input; `toString` is the identity). -/
def calcValueNumber (v : String) : CalcValue := .number v

end create

/-! ## The value parser (`builder.ts`, function `value`)

`value` scans a leading numeric prefix with the JavaScript regular expression
`^[+-]?(?:\d+|\d*\.\d+)(?:[eE][+-]?\d+)?`.  JavaScript alternation is ordered:
`\d+` is tried first and, since everything after the mantissa is optional, the
engine never backtracks into the second alternative once `\d+` matched.  The
functions below reproduce that behaviour. -/

/-- The optional exponent part `(?:[eE][+-]?\d+)?`: returns the consumed
characters and the remainder (consuming nothing when the group fails).
The greedy `\d+` scan is `takeWhile`/`dropWhile` on digits. -/
def scanExponent (cs : List Char) : List Char × List Char :=
  match cs with
  | [] => ([], cs)
  | c :: rest =>
    if c = 'e' ∨ c = 'E' then
      match rest with
      | [] => ([], cs)
      | c2 :: rest2 =>
        if c2 = '+' ∨ c2 = '-' then
          let ds := rest2.takeWhile Char.isDigit
          if ds.isEmpty then ([], cs)
          else (c :: c2 :: ds, rest2.dropWhile Char.isDigit)
        else
          let ds := rest.takeWhile Char.isDigit
          if ds.isEmpty then ([], cs)
          else (c :: ds, rest.dropWhile Char.isDigit)
    else ([], cs)

/-- The mantissa `(?:\d+|\d*\.\d+)` under JavaScript first-match alternation:
`\d+` wins whenever a leading digit exists; the `\d*\.\d+` alternative is only
reached with zero leading digits. -/
def scanMantissa (cs : List Char) : Option (List Char × List Char) :=
  let ds := cs.takeWhile Char.isDigit
  if ds.isEmpty then
    match cs with
    | '.' :: rest2 =>
      let ds2 := rest2.takeWhile Char.isDigit
      if ds2.isEmpty then Option.none
      else some ('.' :: ds2, rest2.dropWhile Char.isDigit)
    | _ => Option.none
  else
    some (ds, cs.dropWhile Char.isDigit)

/-- The optional leading sign `[+-]?`: consumed sign characters and
remainder.  (When a sign is present but no mantissa follows, retrying with an
empty sign cannot succeed either, since the mantissa needs a digit or a dot;
so no backtracking over the sign is needed.) -/
def signSplit (cs : List Char) : List Char × List Char :=
  match cs with
  | c :: rest => if c = '+' ∨ c = '-' then ([c], rest) else ([], cs)
  | [] => ([], cs)

/-- `value.match(/^[+-]?(?:\d+|\d*\.\d+)(?:[eE][+-]?\d+)?/)`: returns the
matched prefix and the remaining suffix, or `none` when there is no match at
position 0. -/
def matchNumPrefix (s : String) : Option (String × String) :=
  let sp := signSplit s.toList
  match scanMantissa sp.2 with
  | Option.none => Option.none
  | some mr =>
    let er := scanExponent mr.2
    some (String.mk (sp.1 ++ mr.1 ++ er.1), String.mk er.2)

/-- `value` of `builder.ts` on a string input. -/
def valueStr (s : String) : CalcValue :=
  match matchNumPrefix s with
  | Option.none => .raw s
  | some (numberPart, unit) =>
    if unit = "" then .number numberPart
    else if unit = "%" then .percentage numberPart
    else .dimension numberPart unit

/-- `value` of `builder.ts` on a number input (integral numbers; JavaScript
stringifies them exactly as `Int.toString` does). -/
def valueNum (n : Int) : CalcValue := .number (toString n)

/-! ## The builder (`builder.ts`) -/

/-- `AnyMaybeExpression = Ast.CalcSum | Ast.CalcProduct | number | string |
null`; the `CalcProduct` alternative is subsumed by `CalcSum` via the
injection `CalcSum.prod`. -/
inductive AnyMaybeExpression where
  | null
  | num (n : Int)
  | str (s : String)
  | expr (e : CalcSum)

/-- JavaScript falsiness of an `AnyMaybeExpression`: `null`, the number `0`
and the empty string are falsy; object values never are. -/
def isFalsy : AnyMaybeExpression → Bool
  | .null => true
  | .num n => n = 0
  | .str s => s = ""
  | .expr _ => false

def AddOp.flip : AddOp → AddOp
  | .plus => .minus
  | .minus => .plus

namespace builder

/-- The sum-merge handling of an expression item (`handleItem` of
`addOrSubstract` restricted to AST operands): a `calc-sum` record is merged
with sign combination, a `calc` node is unwrapped and reprocessed, anything
else is appended with the outer sign. -/
def handleSumExpr (outerOp : AddOp) (acc : List (AddOp × CalcProduct)) :
    CalcSum → List (AddOp × CalcProduct)
  | .sum first rest =>
    let isFirst := acc.isEmpty
    (acc ++ [(outerOp, first)]) ++
      rest.map (fun pr =>
        (if outerOp = AddOp.minus ∧ ¬isFirst then AddOp.flip pr.1 else pr.1,
         pr.2))
  | .prod (.val (.calcF inner)) => handleSumExpr outerOp acc inner
  | .prod p => acc ++ [(outerOp, p)]

/-- `handleItem` of `addOrSubstract`: falsy items are dropped, scalars are
parsed, AST operands go through `handleSumExpr`. -/
def handleItemSum (outerOp : AddOp) (acc : List (AddOp × CalcProduct)) :
    AnyMaybeExpression → List (AddOp × CalcProduct)
  | .null => acc
  | .num n => if n = 0 then acc else acc ++ [(outerOp, .val (valueNum n))]
  | .str s => if s = "" then acc else acc ++ [(outerOp, .val (valueStr s))]
  | .expr e => handleSumExpr outerOp acc e

/-- The resolved item list of `addOrSubstract`. -/
def resolveSum (op : AddOp) (items : List AnyMaybeExpression) :
    List (AddOp × CalcProduct) :=
  items.foldl (handleItemSum op) []

/-- `addOrSubstract`: errors when no items remain, otherwise drops the first
item's sign and wraps the merged sum in a single `calc(...)`. -/
def addOrSubstract (op : AddOp) (items : List AnyMaybeExpression) :
    Except String CalcValue :=
  match resolveSum op items with
  | [] => .error "Expected at least one item."
  | first :: rest => .ok (create.calcNode (create.clacSum first.2 rest))

/-- `builder.add`. -/
def add (items : List AnyMaybeExpression) : Except String CalcValue :=
  addOrSubstract .plus items

/-- `builder.substract` (sic). -/
def substract (items : List AnyMaybeExpression) : Except String CalcValue :=
  addOrSubstract .minus items

/-- The product-merge handling of an expression item (`handleItem` of
`multiplyOrDivide` restricted to AST operands): a `calc-product` record is
merged with its inner operators kept, a `calc-sum` record is parenthesized
into a `group`, a `calc` node is unwrapped and reprocessed, anything else is
appended with the outer operator. -/
def handleProdExpr (op : MulOp) (acc : List (MulOp × CalcValue)) :
    CalcSum → List (MulOp × CalcValue)
  | .sum first rest =>
    acc ++ [(op, create.calcValueGroup (.sum first rest))]
  | .prod (.product first rest) => (acc ++ [(op, first)]) ++ rest
  | .prod (.val (.calcF inner)) => handleProdExpr op acc inner
  | .prod (.val v) => acc ++ [(op, v)]

/-- `handleItem` of `multiplyOrDivide`. -/
def handleItemProd (op : MulOp) (acc : List (MulOp × CalcValue)) :
    AnyMaybeExpression → List (MulOp × CalcValue)
  | .null => acc
  | .num n => if n = 0 then acc else acc ++ [(op, valueNum n)]
  | .str s => if s = "" then acc else acc ++ [(op, valueStr s)]
  | .expr e => handleProdExpr op acc e

/-- The resolved item list of `multiplyOrDivide`. -/
def resolveProduct (op : MulOp) (items : List AnyMaybeExpression) :
    List (MulOp × CalcValue) :=
  items.foldl (handleItemProd op) []

/-- `multiplyOrDivide`. -/
def multiplyOrDivide (op : MulOp) (items : List AnyMaybeExpression) :
    Except String CalcValue :=
  match resolveProduct op items with
  | [] => .error "Expected at least one item."
  | first :: rest =>
    .ok (create.calcNode (.prod (create.calcProduct first.2 rest)))

/-- `builder.multiply`. -/
def multiply (items : List AnyMaybeExpression) : Except String CalcValue :=
  multiplyOrDivide .times items

/-- `builder.divide`. -/
def divide (items : List AnyMaybeExpression) : Except String CalcValue :=
  multiplyOrDivide .div items

/-- One step of `resolveCalcSums` (used by `min`/`max`): falsy items dropped,
scalars parsed, a `calc` node unwrapped once (not recursively), anything else
passed through. -/
def resolveCalcSumsItem (acc : List CalcSum) :
    AnyMaybeExpression → List CalcSum
  | .null => acc
  | .num n => if n = 0 then acc else acc ++ [.prod (.val (valueNum n))]
  | .str s => if s = "" then acc else acc ++ [.prod (.val (valueStr s))]
  | .expr (.prod (.val (.calcF inner))) => acc ++ [inner]
  | .expr e => acc ++ [e]

/-- `resolveCalcSums`. -/
def resolveCalcSums (items : List AnyMaybeExpression) : List CalcSum :=
  items.foldl resolveCalcSumsItem []

/-- `builder.min`. -/
def min (items : List AnyMaybeExpression) : Except String CalcValue :=
  match resolveCalcSums items with
  | [] => .error "Expected at least one item."
  | first :: rest => .ok (create.min first rest)

/-- `builder.max`. -/
def max (items : List AnyMaybeExpression) : Except String CalcValue :=
  match resolveCalcSums items with
  | [] => .error "Expected at least one item."
  | first :: rest => .ok (create.max first rest)

/-- A non-null builder argument (`AnyExpression`). -/
inductive AnyExpression where
  | num (n : Int)
  | str (s : String)
  | expr (e : CalcSum)

/-- `anyExprToCalcSum`: scalars parsed, a `calc` node unwrapped once,
anything else passed through. -/
def anyExprToCalcSum : AnyExpression → CalcSum
  | .num n => .prod (.val (valueNum n))
  | .str s => .prod (.val (valueStr s))
  | .expr (.prod (.val (.calcF inner))) => inner
  | .expr e => e

/-- A `clamp` bound argument: the literal marker `"none"` or an expression. -/
inductive ClampArg where
  | noneMarker
  | arg (e : AnyExpression)

/-- `builder.clamp`. -/
def clamp (lo : ClampArg) (preferred : AnyExpression) (hi : ClampArg) :
    CalcValue :=
  create.clamp
    (match lo with
     | .noneMarker => .noneKw
     | .arg e => .bound (anyExprToCalcSum e))
    (anyExprToCalcSum preferred)
    (match hi with
     | .noneMarker => .noneKw
     | .arg e => .bound (anyExprToCalcSum e))

/-- `builder.round`: a missing (`null`/`undefined`) value argument is an
error; a *falsy* interval argument (absent, `0` or `""`) produces a round
node without an interval. -/
def round (strategy : Option RoundStrategy) (v : Option AnyExpression)
    (interval : Option AnyExpression) : Except String CalcValue :=
  match v with
  | Option.none => .error "Expected at least one item."
  | some v =>
    .ok (create.round strategy (anyExprToCalcSum v)
      (match interval with
       | Option.none => Option.none
       | some iv =>
         match iv with
         | .num n => if n = 0 then Option.none else some (anyExprToCalcSum iv)
         | .str s => if s = "" then Option.none else some (anyExprToCalcSum iv)
         | _ => some (anyExprToCalcSum iv)))

end builder

/-- Serialization lifted over the builder's fallible results. -/
def serializeE (r : Except String CalcValue) : Except String String :=
  r.map serializeValue

/-- `true` exactly on a `calc(...)` node (the only `CalcValue` shape the merge
functions unwrap recursively). -/
def isCalcValValue : CalcValue → Bool
  | .calcF _ => true
  | _ => false

/-- `true` exactly on a bare `calc(...)` value viewed as a product. -/
def isCalcVal : CalcProduct → Bool
  | .val v => isCalcValValue v
  | .product _ _ => false

/-- Well-formedness along the calc-unwrap spine: no degenerate `calc-sum`
record with an empty operator-pair list is reachable by unwrapping `calc`
nodes.  Every node built by the `create` constructors satisfies this. -/
def wfSpine : CalcSum → Bool
  | .sum _ rest => !rest.isEmpty
  | .prod (.val (.calcF inner)) => wfSpine inner
  | .prod _ => true

/-- Well-formedness of a builder argument. -/
def wfItem : AnyMaybeExpression → Bool
  | .expr e => wfSpine e
  | _ => true

namespace builder

/-- Invariant of the resolved list of an `add` call: the first entry always
carries the outer sign `"+"`, and a singleton resolved list never holds a bare
`calc(...)` value (scalars parse to leaves and a lone `calc` operand is
unwrapped before being pushed). -/
def goodList (L : List (AddOp × CalcProduct)) : Prop :=
  (∀ q l, L = q :: l → q.1 = AddOp.plus) ∧
  (∀ q, L = [q] → isCalcVal q.2 = false)

end builder

/-! ## Helper lemmas -/

theorem serializeRs_append (as bs : List AstV) :
    serializeRs (as ++ bs) = serializeRs as ++ serializeRs bs := by
  induction as with
  | nil => simp [serializeRs]
  | cons x xs ih => simp [serializeRs, ih, String.append_assoc]

theorem serializeLoop_eq (stack : List AstV) (out : String) :
    serializeLoop stack out = out ++ serializeRs stack := by
  match stack with
  | [] => simp [serializeLoop, serializeRs]
  | .null :: rest =>
    rw [serializeLoop, serializeLoop_eq rest out]
    simp [serializeRs, serializeR]
  | .leaf k v :: rest =>
    rw [serializeLoop, serializeLoop_eq rest (out ++ v)]
    simp [serializeRs, serializeR, String.append_assoc]
  | .arr items :: rest =>
    rw [serializeLoop, serializeLoop_eq (items ++ rest) out]
    simp [serializeRs, serializeR, serializeRs_append, String.append_assoc]
  | .node k cs :: rest =>
    rw [serializeLoop, serializeLoop_eq (cs ++ rest) out]
    simp [serializeRs, serializeR, serializeRs_append, String.append_assoc]
termination_by sizeVs stack
decreasing_by
  all_goals simp [sizeVs, sizeV, sizeVs_append]

/-- Shared helper: the iterative serializer agrees with the recursive
leaf-token concatenation. -/
theorem serialize_eq_serializeR (n : AstV) : serialize n = serializeR n := by
  rw [serialize, serializeLoop_eq]
  simp [serializeRs]

theorem serializeValue_eq (v : CalcValue) : serializeValue v = serializeR v.toAst :=
  serialize_eq_serializeR _

theorem serializeProduct_eq (p : CalcProduct) :
    serializeProduct p = serializeR p.toAst :=
  serialize_eq_serializeR _

theorem serializeSum_eq (s : CalcSum) : serializeSum s = serializeR s.toAst :=
  serialize_eq_serializeR _

theorem strData_append (a b : String) : (a ++ b).data = a.data ++ b.data := rfl

theorem strExt {a b : String} (h : a.data = b.data) : a = b := by
  cases a; cases b; exact congrArg String.mk h

theorem scanExponent_concat (cs : List Char) :
    (scanExponent cs).1 ++ (scanExponent cs).2 = cs := by
  unfold scanExponent
  dsimp only
  repeat' split
  all_goals simp [List.takeWhile_append_dropWhile]

theorem scanMantissa_concat {cs : List Char} {mr : List Char × List Char}
    (h : scanMantissa cs = some mr) : mr.1 ++ mr.2 = cs := by
  unfold scanMantissa at h
  dsimp only at h
  split at h
  · split at h
    · split at h
      · exact absurd h (by simp)
      · simp only [Option.some.injEq] at h
        subst h
        simp [List.takeWhile_append_dropWhile]
    · exact absurd h (by simp)
  · simp only [Option.some.injEq] at h
    subst h
    exact List.takeWhile_append_dropWhile _ _

theorem signSplit_concat (cs : List Char) :
    (signSplit cs).1 ++ (signSplit cs).2 = cs := by
  unfold signSplit
  repeat' split
  all_goals simp

theorem matchNumPrefix_concat {s np u : String}
    (h : matchNumPrefix s = some (np, u)) : np.data ++ u.data = s.data := by
  unfold matchNumPrefix at h
  dsimp only at h
  split at h
  · exact absurd h (by simp)
  · rename_i mr hm
    simp only [Option.some.injEq, Prod.mk.injEq] at h
    obtain ⟨h1, h2⟩ := h
    subst h1; subst h2
    show ((signSplit s.toList).1 ++ mr.1 ++ (scanExponent mr.2).1) ++
        (scanExponent mr.2).2 = s.data
    rw [List.append_assoc, List.append_assoc, scanExponent_concat]
    rw [scanMantissa_concat hm, signSplit_concat]
    rfl

/-- Shared helper: parsing any string and serializing the resulting leaf gives
the original string back. -/
theorem valueStr_roundTrip (s : String) : serializeValue (valueStr s) = s := by
  rw [serializeValue_eq]
  unfold valueStr
  split
  · rfl
  · rename_i np u hm
    have hc := matchNumPrefix_concat hm
    by_cases h0 : u = ""
    · subst h0
      simp only [if_true]
      apply strExt
      show np.data = s.data
      simpa using hc
    · by_cases h1 : u = "%"
      · subst h1
        simp only [h0, if_false, if_true]
        apply strExt
        show np.data ++ ('%' :: ([] ++ [])) = s.data
        simpa using hc
      · simp only [h0, h1, if_false]
        apply strExt
        show np.data ++ (u.data ++ []) = s.data
        simpa using hc

theorem valueStr_not_calc (s : String) : isCalcValValue (valueStr s) = false := by
  unfold valueStr
  repeat' split
  all_goals rfl

namespace builder

theorem handleSumExpr_prod_eq (op : AddOp) (acc : List (AddOp × CalcProduct))
    (p : CalcProduct) (hp : isCalcVal p = false) :
    handleSumExpr op acc (.prod p) = acc ++ [(op, p)] := by
  match p with
  | .product f r => simp [handleSumExpr]
  | .val v =>
    match v, hp with
    | .number _, _ | .dimension _ _, _ | .percentage _, _ | .keyword _, _
    | .raw _, _ | .group _, _ | .minF _ _, _ | .maxF _ _, _
    | .clampF _ _ _, _ | .expF _, _ | .powF _ _, _ | .roundF _ _ _, _
    | .varF _ _, _ => simp [handleSumExpr]
    | .calcF _, hp => simp [isCalcVal, isCalcValValue] at hp

theorem handleProdExpr_val_eq (op : MulOp) (acc : List (MulOp × CalcValue))
    (v : CalcValue) (hv : isCalcValValue v = false) :
    handleProdExpr op acc (.prod (.val v)) = acc ++ [(op, v)] := by
  match v, hv with
  | .number _, _ | .dimension _ _, _ | .percentage _, _ | .keyword _, _
  | .raw _, _ | .group _, _ | .minF _ _, _ | .maxF _ _, _
  | .clampF _ _ _, _ | .expF _, _ | .powF _ _, _ | .roundF _ _ _, _
  | .varF _ _, _ => simp [handleProdExpr]
  | .calcF _, hv => simp [isCalcValValue] at hv

theorem isCalcVal_false_of (p : CalcProduct)
    (hp : ∀ inner, p ≠ CalcProduct.val (.calcF inner)) : isCalcVal p = false := by
  match p, hp with
  | .product _ _, _ => rfl
  | .val (.number _), _ | .val (.dimension _ _), _ | .val (.percentage _), _
  | .val (.keyword _), _ | .val (.raw _), _ | .val (.group _), _
  | .val (.minF _ _), _ | .val (.maxF _ _), _ | .val (.clampF _ _ _), _
  | .val (.expF _), _ | .val (.powF _ _), _ | .val (.roundF _ _ _), _
  | .val (.varF _ _), _ => rfl
  | .val (.calcF inner), hp => exact absurd rfl (hp inner)

theorem isCalcValValue_false_of (v : CalcValue)
    (hv : ∀ inner, v ≠ CalcValue.calcF inner) : isCalcValValue v = false := by
  match v, hv with
  | .number _, _ | .dimension _ _, _ | .percentage _, _ | .keyword _, _
  | .raw _, _ | .group _, _ | .minF _ _, _ | .maxF _ _, _
  | .clampF _ _ _, _ | .expF _, _ | .powF _ _, _ | .roundF _ _ _, _
  | .varF _ _, _ => rfl
  | .calcF inner, hv => exact absurd rfl (hv inner)

theorem handleSumExpr_ne_nil (op : AddOp) (acc : List (AddOp × CalcProduct))
    (e : CalcSum) : handleSumExpr op acc e ≠ [] := by
  induction e using handleSumExpr.induct op acc with
  | case1 first rest => simp [handleSumExpr]
  | case2 inner ih => simpa [handleSumExpr] using ih
  | case3 p hp =>
    rw [handleSumExpr_prod_eq op acc p (isCalcVal_false_of p hp)]
    simp

theorem handleProdExpr_ne_nil (op : MulOp) (acc : List (MulOp × CalcValue))
    (e : CalcSum) : handleProdExpr op acc e ≠ [] := by
  induction e using handleProdExpr.induct op acc with
  | case1 first rest => simp [handleProdExpr]
  | case2 first rest => simp [handleProdExpr]
  | case3 inner ih => simpa [handleProdExpr] using ih
  | case4 v hv =>
    rw [handleProdExpr_val_eq op acc v (isCalcValValue_false_of v hv)]
    simp

end builder

namespace builder

theorem handleItemSum_falsy (op : AddOp) (acc : List (AddOp × CalcProduct))
    (it : AnyMaybeExpression) (h : isFalsy it = true) :
    handleItemSum op acc it = acc := by
  cases it with
  | null => rfl
  | num n => simp [isFalsy] at h; simp [handleItemSum, h]
  | str s => simp [isFalsy] at h; simp [handleItemSum, h]
  | expr e => simp [isFalsy] at h

theorem handleItemSum_nil_iff (op : AddOp) (acc : List (AddOp × CalcProduct))
    (it : AnyMaybeExpression) :
    handleItemSum op acc it = [] ↔ (acc = [] ∧ isFalsy it = true) := by
  cases it with
  | null => simp [handleItemSum, isFalsy]
  | num n =>
    by_cases h : n = 0
    · simp [handleItemSum, isFalsy, h]
    · simp [handleItemSum, isFalsy, h]
  | str s =>
    by_cases h : s = ""
    · simp [handleItemSum, isFalsy, h]
    · simp [handleItemSum, isFalsy, h]
  | expr e =>
    simp only [handleItemSum, isFalsy]
    constructor
    · intro h
      exact absurd h (handleSumExpr_ne_nil op acc e)
    · intro h
      exact absurd h.2 (by simp)

theorem handleItemProd_nil_iff (op : MulOp) (acc : List (MulOp × CalcValue))
    (it : AnyMaybeExpression) :
    handleItemProd op acc it = [] ↔ (acc = [] ∧ isFalsy it = true) := by
  cases it with
  | null => simp [handleItemProd, isFalsy]
  | num n =>
    by_cases h : n = 0
    · simp [handleItemProd, isFalsy, h]
    · simp [handleItemProd, isFalsy, h]
  | str s =>
    by_cases h : s = ""
    · simp [handleItemProd, isFalsy, h]
    · simp [handleItemProd, isFalsy, h]
  | expr e =>
    simp only [handleItemProd, isFalsy]
    constructor
    · intro h
      exact absurd h (handleProdExpr_ne_nil op acc e)
    · intro h
      exact absurd h.2 (by simp)

theorem resolveCalcSumsItem_nil_iff (acc : List CalcSum)
    (it : AnyMaybeExpression) :
    resolveCalcSumsItem acc it = [] ↔ (acc = [] ∧ isFalsy it = true) := by
  cases it with
  | null => simp [resolveCalcSumsItem, isFalsy]
  | num n =>
    by_cases h : n = 0
    · simp [resolveCalcSumsItem, isFalsy, h]
    · simp [resolveCalcSumsItem, isFalsy, h]
  | str s =>
    by_cases h : s = ""
    · simp [resolveCalcSumsItem, isFalsy, h]
    · simp [resolveCalcSumsItem, isFalsy, h]
  | expr e =>
    simp only [isFalsy]
    constructor
    · intro h
      unfold resolveCalcSumsItem at h
      split at h <;> simp_all
    · intro h
      exact absurd h.2 (by simp)

theorem foldl_handleItemSum_nil_iff (op : AddOp)
    (items : List AnyMaybeExpression) :
    ∀ acc, (items.foldl (handleItemSum op) acc = [] ↔
      (acc = [] ∧ items.all isFalsy = true)) := by
  induction items with
  | nil => simp
  | cons it rest ih =>
    intro acc
    rw [List.foldl_cons, ih (handleItemSum op acc it), handleItemSum_nil_iff]
    simp [and_assoc]

theorem foldl_handleItemProd_nil_iff (op : MulOp)
    (items : List AnyMaybeExpression) :
    ∀ acc, (items.foldl (handleItemProd op) acc = [] ↔
      (acc = [] ∧ items.all isFalsy = true)) := by
  induction items with
  | nil => simp
  | cons it rest ih =>
    intro acc
    rw [List.foldl_cons, ih (handleItemProd op acc it), handleItemProd_nil_iff]
    simp [and_assoc]

theorem foldl_resolveCalcSumsItem_nil_iff (items : List AnyMaybeExpression) :
    ∀ acc, (items.foldl resolveCalcSumsItem acc = [] ↔
      (acc = [] ∧ items.all isFalsy = true)) := by
  induction items with
  | nil => simp
  | cons it rest ih =>
    intro acc
    rw [List.foldl_cons, ih (resolveCalcSumsItem acc it),
      resolveCalcSumsItem_nil_iff]
    simp [and_assoc]

end builder

namespace builder

theorem goodList_nil : goodList [] := by
  constructor
  · intro q l h
    exact nomatch h
  · intro q h
    exact nomatch h

theorem goodList_append_single (acc : List (AddOp × CalcProduct))
    (x : AddOp × CalcProduct) (hx : x.1 = AddOp.plus)
    (hxc : isCalcVal x.2 = false) (hg : goodList acc) :
    goodList (acc ++ [x]) := by
  constructor
  · intro q l h
    cases acc with
    | nil =>
      simp only [List.nil_append] at h
      cases h
      exact hx
    | cons a t =>
      simp only [List.cons_append] at h
      injection h with h1 h2
      subst h1
      exact hg.1 a t rfl
  · intro q h
    cases acc with
    | nil =>
      simp only [List.nil_append] at h
      cases h
      exact hxc
    | cons a t =>
      exfalso
      have := congrArg List.length h
      simp at this

theorem goodList_append2 (acc tail : List (AddOp × CalcProduct))
    (x : AddOp × CalcProduct) (hx : x.1 = AddOp.plus) (ht : tail ≠ [])
    (hg : goodList acc) :
    goodList ((acc ++ [x]) ++ tail) := by
  constructor
  · intro q l h
    cases acc with
    | nil =>
      simp only [List.nil_append, List.cons_append] at h
      cases h
      exact hx
    | cons a t =>
      simp only [List.cons_append] at h
      injection h with h1 h2
      subst h1
      exact hg.1 a t rfl
  · intro q h
    cases tail with
    | nil => exact absurd rfl ht
    | cons y ys =>
      have := congrArg List.length h
      simp [List.length_append] at this
      omega

theorem goodList_handleSumExpr (acc : List (AddOp × CalcProduct)) (e : CalcSum)
    (hg : goodList acc) :
    wfSpine e = true → goodList (handleSumExpr .plus acc e) := by
  induction e using handleSumExpr.induct AddOp.plus acc with
  | case1 first rest =>
    intro he
    have hr : ¬rest.isEmpty := by simpa [wfSpine] using he
    simp only [handleSumExpr]
    apply goodList_append2 acc _ _ rfl _ hg
    simpa using hr
  | case2 inner ih =>
    intro he
    simp only [handleSumExpr]
    exact ih (by simpa [wfSpine] using he)
  | case3 p hp =>
    intro he
    rw [handleSumExpr_prod_eq _ _ _ (isCalcVal_false_of p hp)]
    exact goodList_append_single acc _ rfl (isCalcVal_false_of p hp) hg

theorem goodList_handleItemSum (acc : List (AddOp × CalcProduct))
    (it : AnyMaybeExpression) (hw : wfItem it = true) (hg : goodList acc) :
    goodList (handleItemSum .plus acc it) := by
  cases it with
  | null => exact hg
  | num n =>
    by_cases h : n = 0
    · simpa [handleItemSum, h] using hg
    · simp only [handleItemSum, h, if_false]
      exact goodList_append_single acc _ rfl rfl hg
  | str s =>
    by_cases h : s = ""
    · simpa [handleItemSum, h] using hg
    · simp only [handleItemSum, h, if_false]
      exact goodList_append_single acc _ rfl (valueStr_not_calc s) hg
  | expr e =>
    exact goodList_handleSumExpr acc e hg (by simpa [wfItem] using hw)

theorem goodList_foldl (items : List AnyMaybeExpression) :
    ∀ acc, (∀ it ∈ items, wfItem it = true) → goodList acc →
      goodList (items.foldl (handleItemSum .plus) acc) := by
  induction items with
  | nil => intro acc _ hg; exact hg
  | cons it rest ih =>
    intro acc hw hg
    rw [List.foldl_cons]
    exact ih _ (fun x hx => hw x (by simp [hx]))
      (goodList_handleItemSum acc it (hw it (by simp)) hg)

theorem goodList_resolveSum (items : List AnyMaybeExpression)
    (hw : ∀ it ∈ items, wfItem it = true) :
    goodList (resolveSum .plus items) :=
  goodList_foldl items [] hw goodList_nil

/-- Re-merging the sum built from a good resolved list reproduces the list. -/
theorem handleSumExpr_clacSum (acc : List (AddOp × CalcProduct))
    (q : AddOp × CalcProduct) (rest : List (AddOp × CalcProduct))
    (hg : goodList (q :: rest)) :
    handleSumExpr .plus acc (create.clacSum q.2 rest) = acc ++ q :: rest := by
  have hq1 : q.1 = AddOp.plus := hg.1 q rest rfl
  cases rest with
  | nil =>
    have hq2 : isCalcVal q.2 = false := hg.2 q rfl
    rw [show create.clacSum q.2 [] = CalcSum.prod q.2 from rfl]
    rw [handleSumExpr_prod_eq _ _ _ hq2]
    cases q with
    | mk a b =>
      simp only at hq1
      subst hq1
      rfl
  | cons r rs =>
    rw [show create.clacSum q.2 (r :: rs) = CalcSum.sum q.2 (r :: rs) from rfl]
    simp only [handleSumExpr]
    cases q with
    | mk a b =>
      simp only at hq1
      subst hq1
      simp [List.append_assoc]

end builder

/-! ## Claim theorems -/

/-- C8: the iterative stack-based serializer equals the naive recursive
left-to-right concatenation of all leaf string tokens on every AST node, and
`null` placeholders contribute nothing. -/
theorem C8_serializer_iterative_eq_recursive :
    ∀ (n : AstV), serialize n = serializeR n ∧ serializeR AstV.null = "" :=
  fun n => ⟨serialize_eq_serializeR n, rfl⟩

/-- C6: parsing any string with `value` and serializing the result returns
the original string unchanged; in particular `"12.5"`, `"50%"`, `"10px"` and
the unrecognized `"var(--x)"` (a raw node) round-trip. -/
theorem C6_leaf_round_trip :
    (∀ s : String, serializeValue (valueStr s) = s) ∧
    serializeValue (valueStr "12.5") = "12.5" ∧
    serializeValue (valueStr "50%") = "50%" ∧
    serializeValue (valueStr "10px") = "10px" ∧
    serializeValue (valueStr "var(--x)") = "var(--x)" ∧
    valueStr "var(--x)" = CalcValue.raw "var(--x)" :=
  ⟨valueStr_roundTrip, valueStr_roundTrip _, valueStr_roundTrip _,
    valueStr_roundTrip _, valueStr_roundTrip _, rfl⟩

/-- C7: `clacSum`/`calcProduct` with zero operator pairs return the bare
operand itself (so their serializations coincide with the operand's), and
neither constructor ever returns a `calc-sum`/`calc-product` record with an
empty trailing operator-pair list. -/
theorem C7_single_operand_collapse :
    ∀ (p : CalcProduct) (v : CalcValue) (l1 : List (AddOp × CalcProduct))
      (l2 : List (MulOp × CalcValue)),
      create.clacSum p [] = CalcSum.prod p ∧
      create.calcProduct v [] = CalcProduct.val v ∧
      serializeSum (create.clacSum p []) = serializeProduct p ∧
      serializeProduct (create.calcProduct v []) = serializeValue v ∧
      (∀ q, create.clacSum p l1 ≠ CalcSum.sum q []) ∧
      (∀ q, create.calcProduct v l2 ≠ CalcProduct.product q []) := by
  intro p v l1 l2
  refine ⟨rfl, rfl, rfl, rfl, ?_, ?_⟩
  · intro q hq
    unfold create.clacSum at hq
    cases l1 with
    | nil => exact nomatch hq
    | cons x xs =>
      simp only [List.isEmpty, if_false] at hq
      injection hq with h1 h2
      exact nomatch h2
  · intro q hq
    unfold create.calcProduct at hq
    cases l2 with
    | nil => exact nomatch hq
    | cons x xs =>
      simp only [List.isEmpty, if_false] at hq
      injection hq with h1 h2
      exact nomatch h2

/-- C4: `value` classifies a number input as a number node, a non-matching
string as a raw node, and a matched numeric prefix by its suffix (empty →
number, `%` → percentage, other → dimension); however, because JavaScript
alternation takes the first matching branch, the regex matches only `"12"`
of `"12.5"`, so `"12.5"` becomes a dimension node with unit `".5"` rather
than the number node the specification claims. -/
theorem C4_value_classification :
    valueStr "12.5" = CalcValue.dimension "12" ".5" ∧
    valueStr "12.5" ≠ CalcValue.number "12.5" ∧
    (∀ n : Int, valueNum n = CalcValue.number (toString n)) ∧
    valueStr "abc" = CalcValue.raw "abc" ∧
    valueStr "50%" = CalcValue.percentage "50" ∧
    valueStr "10px" = CalcValue.dimension "10" "px" ∧
    valueStr "1e5" = CalcValue.number "1e5" ∧
    valueStr ".5" = CalcValue.number ".5" := by
  refine ⟨rfl, ?_, fun n => rfl, rfl, rfl, rfl, rfl, rfl⟩
  intro hq
  exact nomatch hq

/-- C1: merging a calc-sum operand appends its first term with the outer
sign; each subsequent pair's sign is flipped exactly when the outer operation
is minus and the calc-sum is not the first contribution to the output (in
particular when a calc-sum is the sole first operand of `substract`, the
inner signs are kept unchanged), and `substract(10, calcSum(5, [+,2], [-,1]))`
serializes to `"calc(10 - 5 - 2 + 1)"`. -/
theorem C1_sum_merge_sign_propagation :
    (∀ n : Int, n ≠ 0 → ∀ (first : CalcProduct)
        (rest : List (AddOp × CalcProduct)),
      builder.substract [.num n, .expr (.sum first rest)] =
        .ok (create.calcNode (create.clacSum (.val (valueNum n))
          ((AddOp.minus, first) ::
            rest.map (fun pr => (AddOp.flip pr.1, pr.2))))) ∧
      builder.add [.num n, .expr (.sum first rest)] =
        .ok (create.calcNode (create.clacSum (.val (valueNum n))
          ((AddOp.plus, first) :: rest)))) ∧
    (∀ (first : CalcProduct) (rest : List (AddOp × CalcProduct)),
      builder.substract [.expr (.sum first rest)] =
        .ok (create.calcNode (create.clacSum first rest))) ∧
    serializeE (builder.substract [.num 10, .expr (.sum (.val (.number "5"))
      [(.plus, .val (.number "2")), (.minus, .val (.number "1"))])]) =
      .ok "calc(10 - 5 - 2 + 1)" := by
  refine ⟨fun n hn first rest => ⟨?_, ?_⟩, fun first rest => ?_, ?_⟩
  · simp [builder.substract, builder.addOrSubstract, builder.resolveSum,
      List.foldl, builder.handleItemSum, builder.handleSumExpr, hn]
  · simp [builder.add, builder.addOrSubstract, builder.resolveSum,
      List.foldl, builder.handleItemSum, builder.handleSumExpr, hn]
  · simp [builder.substract, builder.addOrSubstract, builder.resolveSum,
      List.foldl, builder.handleItemSum, builder.handleSumExpr]
  · simp only [serializeE, Except.map, serializeValue_eq]
    rfl

/-- C1 witness: the sign-propagation theorem instantiated at the concrete
inputs of the subtraction example. -/
theorem C1_sum_merge_sign_propagation_witness :
    builder.substract [.num 10, .expr (.sum (.val (.number "5"))
      [(.plus, .val (.number "2")), (.minus, .val (.number "1"))])] =
      .ok (create.calcNode (create.clacSum (.val (.number "10"))
        [(.minus, .val (.number "5")), (.minus, .val (.number "2")),
          (.plus, .val (.number "1"))])) :=
  (C1_sum_merge_sign_propagation.1 10 (by decide) (.val (.number "5"))
    [(.plus, .val (.number "2")), (.minus, .val (.number "1"))]).1

/-- C10: operands equal to the number `0` or the empty string are dropped by
the sum and product merges exactly like `null`; `add(1, 0, 2)` serializes to
`"calc(1 + 2)"`; `add(0)` raises the empty-input error; and `round` treats a
`0` or `""` interval argument as omitted. -/
theorem C10_falsy_operands :
    (∀ (op : AddOp) (acc : List (AddOp × CalcProduct)),
      builder.handleItemSum op acc (.num 0) = acc ∧
      builder.handleItemSum op acc (.str "") = acc ∧
      builder.handleItemSum op acc .null = acc) ∧
    (∀ (op : MulOp) (acc : List (MulOp × CalcValue)),
      builder.handleItemProd op acc (.num 0) = acc ∧
      builder.handleItemProd op acc (.str "") = acc ∧
      builder.handleItemProd op acc .null = acc) ∧
    serializeE (builder.add [.num 1, .num 0, .num 2]) = .ok "calc(1 + 2)" ∧
    builder.add [.num 0] = .error "Expected at least one item." ∧
    (∀ (st : Option RoundStrategy) (v : builder.AnyExpression),
      builder.round st (some v) (some (.num 0)) =
        builder.round st (some v) Option.none ∧
      builder.round st (some v) (some (.str "")) =
        builder.round st (some v) Option.none) ∧
    serializeE (builder.round Option.none (some (.str "10px"))
      (some (.num 0))) = .ok "round(10px)" := by
  refine ⟨?_, ?_, ?_, rfl, ?_, ?_⟩
  · intro op acc
    exact ⟨by simp [builder.handleItemSum], by simp [builder.handleItemSum],
      rfl⟩
  · intro op acc
    exact ⟨by simp [builder.handleItemProd], by simp [builder.handleItemProd],
      rfl⟩
  · simp only [serializeE, Except.map, serializeValue_eq]
    rfl
  · intro st v
    exact ⟨by simp [builder.round], by simp [builder.round]⟩
  · simp only [serializeE, Except.map, serializeValue_eq]
    rfl

namespace builder

theorem addOrSubstract_error_iff (op : AddOp)
    (items : List AnyMaybeExpression) :
    (addOrSubstract op items = .error "Expected at least one item." ↔
      items.all isFalsy = true) := by
  unfold addOrSubstract
  cases h : resolveSum op items with
  | nil =>
    simp only []
    constructor
    · intro _
      exact ((foldl_handleItemSum_nil_iff op items []).mp h).2
    · intro _
      trivial
  | cons f rest =>
    simp only []
    constructor
    · intro hcontra
      exact absurd hcontra (by simp)
    · intro hall
      exfalso
      have hnil : resolveSum op items = [] :=
        (foldl_handleItemSum_nil_iff op items []).mpr ⟨rfl, hall⟩
      rw [h] at hnil
      exact nomatch hnil

theorem multiplyOrDivide_error_iff (op : MulOp)
    (items : List AnyMaybeExpression) :
    (multiplyOrDivide op items = .error "Expected at least one item." ↔
      items.all isFalsy = true) := by
  unfold multiplyOrDivide
  cases h : resolveProduct op items with
  | nil =>
    simp only []
    constructor
    · intro _
      exact ((foldl_handleItemProd_nil_iff op items []).mp h).2
    · intro _
      trivial
  | cons f rest =>
    simp only []
    constructor
    · intro hcontra
      exact absurd hcontra (by simp)
    · intro hall
      exfalso
      have hnil : resolveProduct op items = [] :=
        (foldl_handleItemProd_nil_iff op items []).mpr ⟨rfl, hall⟩
      rw [h] at hnil
      exact nomatch hnil

theorem min_error_iff (items : List AnyMaybeExpression) :
    (min items = .error "Expected at least one item." ↔
      items.all isFalsy = true) := by
  unfold min
  cases h : resolveCalcSums items with
  | nil =>
    simp only []
    constructor
    · intro _
      exact ((foldl_resolveCalcSumsItem_nil_iff items []).mp h).2
    · intro _
      trivial
  | cons f rest =>
    simp only []
    constructor
    · intro hcontra
      exact absurd hcontra (by simp)
    · intro hall
      exfalso
      have hnil : resolveCalcSums items = [] :=
        (foldl_resolveCalcSumsItem_nil_iff items []).mpr ⟨rfl, hall⟩
      rw [h] at hnil
      exact nomatch hnil

theorem max_error_iff (items : List AnyMaybeExpression) :
    (max items = .error "Expected at least one item." ↔
      items.all isFalsy = true) := by
  unfold max
  cases h : resolveCalcSums items with
  | nil =>
    simp only []
    constructor
    · intro _
      exact ((foldl_resolveCalcSumsItem_nil_iff items []).mp h).2
    · intro _
      trivial
  | cons f rest =>
    simp only []
    constructor
    · intro hcontra
      exact absurd hcontra (by simp)
    · intro hall
      exfalso
      have hnil : resolveCalcSums items = [] :=
        (foldl_resolveCalcSumsItem_nil_iff items []).mpr ⟨rfl, hall⟩
      rw [h] at hnil
      exact nomatch hnil

end builder

/-- C5 counterexample: `add(0)` raises the empty-input error even though its
item list contains a non-null operand, refuting the claim that the error is
raised iff zero operands remain after dropping only the `null` placeholders. -/
theorem C5_empty_error_cex :
    builder.add [.num 0] = .error "Expected at least one item." ∧
    AnyMaybeExpression.num 0 ≠ AnyMaybeExpression.null :=
  ⟨rfl, fun h => nomatch h⟩

/-- C5 (amended): each of `add`, `substract`, `multiply`, `divide`, `min` and
`max` raises the error `"Expected at least one item."` if and only if every
item of its list is falsy (`null`, the number `0`, or the empty string); with
at least one non-falsy operand the call succeeds. -/
theorem C5_empty_error_iff :
    ∀ items : List AnyMaybeExpression,
      (builder.add items = .error "Expected at least one item." ↔
        items.all isFalsy = true) ∧
      (builder.substract items = .error "Expected at least one item." ↔
        items.all isFalsy = true) ∧
      (builder.multiply items = .error "Expected at least one item." ↔
        items.all isFalsy = true) ∧
      (builder.divide items = .error "Expected at least one item." ↔
        items.all isFalsy = true) ∧
      (builder.min items = .error "Expected at least one item." ↔
        items.all isFalsy = true) ∧
      (builder.max items = .error "Expected at least one item." ↔
        items.all isFalsy = true) :=
  fun items =>
    ⟨builder.addOrSubstract_error_iff .plus items,
     builder.addOrSubstract_error_iff .minus items,
     builder.multiplyOrDivide_error_iff .times items,
     builder.multiplyOrDivide_error_iff .div items,
     builder.min_error_iff items,
     builder.max_error_iff items⟩

/-- C3 counterexample: with third operand `0` the product merge drops the
operand (JavaScript falsiness), so `multiply(calcSum(1, [+,2]), 0)`
serializes to `"calc((1 + 2))"`, not to `"calc((1 + 2)*0)"` as the claim's
universal statement requires. -/
theorem C3_parenthesization_cex :
    serializeE (builder.multiply [.expr (.sum (.val (.number "1"))
      [(.plus, .val (.number "2"))]), .num 0]) = .ok "calc((1 + 2))" ∧
    ("calc((1 + 2))" : String) ≠ "calc((1 + 2)*0)" := by
  constructor
  · simp only [serializeE, Except.map, serializeValue_eq]
    rfl
  · decide

/-- C3 (amended): in `multiply`/`divide` every calc-sum operand is wrapped in
an explicit group (parenthesized) node, never unwrapped, and
`multiply(calcSum(a, [+,b]), c)` serializes to `"calc((a + b)*c)"` for all
`a`, `b` and every `c` that is not dropped as falsy (`c ≠ 0`). -/
theorem C3_parenthesization :
    (∀ (op : MulOp) (acc : List (MulOp × CalcValue)) (first : CalcProduct)
        (rest : List (AddOp × CalcProduct)),
      builder.handleItemProd op acc (.expr (.sum first rest)) =
        acc ++ [(op, create.calcValueGroup (.sum first rest))]) ∧
    (∀ (pa pb : CalcProduct) (c : Int), c ≠ 0 →
      serializeE (builder.multiply [.expr (.sum pa [(.plus, pb)]), .num c]) =
        .ok ("calc((" ++ serializeProduct pa ++ " + " ++ serializeProduct pb ++
          ")*" ++ toString c ++ ")")) := by
  constructor
  · intro op acc first rest
    simp [builder.handleItemProd, builder.handleProdExpr]
  · intro pa pb c hc
    simp only [serializeE, builder.multiply, builder.multiplyOrDivide,
      builder.resolveProduct, List.foldl, builder.handleItemProd,
      builder.handleProdExpr, hc, if_false]
    simp only [List.nil_append, List.singleton_append, List.cons_append]
    simp only [Except.map]
    apply congrArg
    rw [serializeValue_eq]
    apply strExt
    simp only [create.calcNode, create.calcProduct, create.calcValueGroup,
      valueNum, List.isEmpty]
    simp [CalcValue.toAst, CalcSum.toAst, CalcProduct.toAst, addPairsToAst,
      mulPairsToAst, AddOp.token, MulOp.token, serializeR, serializeRs,
      strData_append, serializeProduct_eq, List.append_assoc]

/-- C3 witness: the amended parenthesization theorem instantiated at
`a = 1`, `b = 2`, `c = 3`. -/
theorem C3_parenthesization_witness :
    serializeE (builder.multiply [.expr (.sum (.val (.number "1"))
      [(.plus, .val (.number "2"))]), .num 3]) = .ok "calc((1 + 2)*3)" := by
  have h := C3_parenthesization.2 (.val (.number "1")) (.val (.number "2")) 3
    (by decide)
  rw [h]
  simp only [serializeProduct_eq]
  rfl

/-- C9: serialized sum operators carry one space on each side, product
operators none, and comma-separated argument lists carry no space after
commas; the clamp end-to-end example with two unwrapped inner calc operands
serializes to `"clamp(5 + 1,7,10 - 2)"`. -/
theorem C9_output_format :
    serializeValue (builder.clamp
      (.arg (.expr (.prod (.val (create.calcNode (.sum (.val (.number "5"))
        [(.plus, .val (.number "1"))]))))))
      (.num 7)
      (.arg (.expr (.prod (.val (create.calcNode (.sum (.val (.number "10"))
        [(.minus, .val (.number "2"))]))))))) = "clamp(5 + 1,7,10 - 2)" ∧
    (AddOp.plus.token = " + " ∧ AddOp.minus.token = " - " ∧
      MulOp.times.token = "*" ∧ MulOp.div.token = "/") ∧
    (∀ a b : Int, a ≠ 0 → b ≠ 0 →
      serializeE (builder.add [.num a, .num b]) =
        .ok ("calc(" ++ toString a ++ " + " ++ toString b ++ ")") ∧
      serializeE (builder.substract [.num a, .num b]) =
        .ok ("calc(" ++ toString a ++ " - " ++ toString b ++ ")") ∧
      serializeE (builder.multiply [.num a, .num b]) =
        .ok ("calc(" ++ toString a ++ "*" ++ toString b ++ ")") ∧
      serializeE (builder.divide [.num a, .num b]) =
        .ok ("calc(" ++ toString a ++ "/" ++ toString b ++ ")") ∧
      serializeE (builder.min [.num a, .num b]) =
        .ok ("min(" ++ toString a ++ "," ++ toString b ++ ")") ∧
      serializeE (builder.max [.num a, .num b]) =
        .ok ("max(" ++ toString a ++ "," ++ toString b ++ ")")) := by
  refine ⟨?_, ⟨rfl, rfl, rfl, rfl⟩, ?_⟩
  · rw [serializeValue_eq]
    rfl
  · intro a b ha hb
    refine ⟨?_, ?_, ?_, ?_, ?_, ?_⟩
    all_goals
      simp only [serializeE, builder.add, builder.substract, builder.multiply,
        builder.divide, builder.min, builder.max, builder.addOrSubstract,
        builder.multiplyOrDivide, builder.resolveSum, builder.resolveProduct,
        builder.resolveCalcSums, List.foldl, builder.handleItemSum,
        builder.handleItemProd, builder.resolveCalcSumsItem, ha, hb, if_false]
    all_goals
      simp only [List.nil_append, List.singleton_append, List.cons_append]
    all_goals simp only [Except.map]
    all_goals apply congrArg
    all_goals rw [serializeValue_eq]
    all_goals apply strExt
    all_goals
      simp only [create.calcNode, create.clacSum, create.calcProduct,
        create.min, create.max, valueNum, List.isEmpty]
    all_goals
      simp [CalcValue.toAst, CalcSum.toAst, CalcProduct.toAst, addPairsToAst,
        mulPairsToAst, commaSumsToAst, AddOp.token, MulOp.token, serializeR,
        serializeRs, strData_append, List.append_assoc]

/-- C9 witness: the output-format theorem instantiated at `a = 1`, `b = 2`.
-/
theorem C9_output_format_witness :
    serializeE (builder.add [.num 1, .num 2]) = .ok "calc(1 + 2)" ∧
    serializeE (builder.min [.num 1, .num 2]) = .ok "min(1,2)" := by
  have h := C9_output_format.2.2 1 2 (by decide) (by decide)
  exact ⟨by rw [h.1]; rfl, by rw [h.2.2.2.2.1]; rfl⟩

namespace builder

theorem add_remerge_core (a b : AnyMaybeExpression) (r : CalcValue)
    (ha : wfItem a = true) (hb : wfItem b = true)
    (h : add [a, b] = .ok r) (c : AnyMaybeExpression) :
    add [.expr (.prod (.val r)), c] = add [a, b, c] ∧
    add [.expr (.prod (.val (create.calcNode (.prod (.val r))))), c] =
      add [a, b, c] := by
  unfold add addOrSubstract at h
  cases hL : resolveSum .plus [a, b] with
  | nil =>
    rw [hL] at h
    exact absurd h (by simp)
  | cons f rest =>
    rw [hL] at h
    simp only [Except.ok.injEq] at h
    subst h
    have hgood : goodList (f :: rest) := by
      have hg := goodList_resolveSum [a, b] ?_
      · rwa [hL] at hg
      · intro it hit
        simp only [List.mem_cons, List.not_mem_nil] at hit
        rcases hit with rfl | rfl | hfalse
        · exact ha
        · exact hb
        · exact hfalse.elim
    have hitem : handleItemSum .plus []
        (.expr (.prod (.val (create.calcNode (create.clacSum f.2 rest))))) =
        f :: rest := by
      show handleSumExpr .plus []
        (.prod (.val (.calcF (create.clacSum f.2 rest)))) = f :: rest
      rw [show handleSumExpr .plus ([] : List (AddOp × CalcProduct))
          (.prod (.val (.calcF (create.clacSum f.2 rest)))) =
          handleSumExpr .plus [] (create.clacSum f.2 rest) from by
        simp [handleSumExpr]]
      simpa using handleSumExpr_clacSum [] f rest hgood
    have hitem2 : handleItemSum .plus []
        (.expr (.prod (.val (create.calcNode (.prod (.val (create.calcNode
          (create.clacSum f.2 rest)))))))) = f :: rest := by
      show handleSumExpr .plus []
        (.prod (.val (.calcF (.prod (.val (.calcF
          (create.clacSum f.2 rest))))))) = f :: rest
      rw [show handleSumExpr .plus ([] : List (AddOp × CalcProduct))
          (.prod (.val (.calcF (.prod (.val (.calcF
            (create.clacSum f.2 rest))))))) =
          handleSumExpr .plus []
            (.prod (.val (.calcF (create.clacSum f.2 rest)))) from by
        simp [handleSumExpr]]
      exact hitem
    have hab : handleItemSum .plus (handleItemSum .plus [] a) b = f :: rest := by
      simpa [resolveSum, List.foldl] using hL
    constructor
    · have hresolve : resolveSum .plus
          [.expr (.prod (.val (create.calcNode (create.clacSum f.2 rest)))),
            c] = resolveSum .plus [a, b, c] := by
        simp only [resolveSum, List.foldl]
        rw [hitem, hab]
      unfold add addOrSubstract
      rw [hresolve]
    · have hresolve : resolveSum .plus
          [.expr (.prod (.val (create.calcNode (.prod (.val (create.calcNode
            (create.clacSum f.2 rest))))))), c] =
          resolveSum .plus [a, b, c] := by
        simp only [resolveSum, List.foldl]
        rw [hitem2, hab]
      unfold add addOrSubstract
      rw [hresolve]

end builder

/-- C2: for well-formed operands, once `add(a, b)` succeeds with result `r`,
both `add(r, c)` and `add(create.calc(r), c)` produce exactly the node of
`add(a, b, c)` — the nested `calc(...)` operand is unwrapped and remerged, so
the serialized strings coincide and the calc wrapper is applied once. -/
theorem C2_flattening_calc_unwrap (a b c : AnyMaybeExpression) (r : CalcValue)
    (ha : wfItem a = true) (hb : wfItem b = true)
    (h : builder.add [a, b] = .ok r) :
    serializeE (builder.add [.expr (.prod (.val r)), c]) =
      serializeE (builder.add [a, b, c]) ∧
    serializeE (builder.add [.expr (.prod (.val (create.calcNode (.prod
      (.val r))))), c]) = serializeE (builder.add [a, b, c]) := by
  obtain ⟨h1, h2⟩ := builder.add_remerge_core a b r ha hb h c
  exact ⟨congrArg serializeE h1, congrArg serializeE h2⟩

/-- C2 witness: the flattening theorem instantiated at `a = 1`, `b = 2`,
`c = 3`, with `r = add(1, 2)` evaluated. -/
theorem C2_flattening_calc_unwrap_witness :
    serializeE (builder.add [.expr (.prod (.val (create.calcNode (.sum
      (.val (.number "1")) [(.plus, .val (.number "2"))])))), .num 3]) =
      serializeE (builder.add [.num 1, .num 2, .num 3]) ∧
    serializeE (builder.add [.expr (.prod (.val (create.calcNode (.prod
      (.val (create.calcNode (.sum (.val (.number "1"))
        [(.plus, .val (.number "2"))]))))))), .num 3]) =
      serializeE (builder.add [.num 1, .num 2, .num 3]) :=
  C2_flattening_calc_unwrap (.num 1) (.num 2) (.num 3)
    (create.calcNode (.sum (.val (.number "1")) [(.plus, .val (.number "2"))]))
    rfl rfl rfl
